import Mathlib

/-!
Shallow embedding of the Epic-Games-Library-Relinker core (`src/game_data.py`)
and proofs of the specification claims about it.

The program is a single-threaded manifest-relocation tool.  We embed:
  * `FileDirectory` (name + path pairs produced by directory scans),
  * the JSON manifest model (an ordered association list, as a Python `dict`
    obtained from `json.load`),
  * `update_manifest_location_references` (the manifest rewriter, including
    the `assert_manifest_is_supported` version gate that calls `sys.exit(1)`),
  * the discovery scanner `get_game_data_list`,
  * the matcher `get_matching_launcher_manifest`,
  * the per-game loop of `move_game_installation`, as explicit state passing
    over a `MoveFS` record with an event trace.

File-system effects are modelled by explicit state: the contents of the
source backup folder, the destination backup folder, the set of game folders
at the source root and the set of folders at the destination.  `sys.exit`
and uncaught exceptions are modelled as an `Except`-style early exit that
stops all further processing, as terminating the process does.
-/

set_option autoImplicit false

namespace Relinker

/-! ## Constants (class attributes of `GameDataManager`) -/

def MANIFEST_BACKUP_FOLDER_NAME : String := "_MANIFEST_BACKUPS"

def GAME_MANIFEST_FOLDER_NAME : String := ".egstore"

def GAME_MANIFEST_FILE_TYPE : String := ".manifest"

def LAUNCHER_MANIFEST_FILE_TYPE : String := ".item"

def STAGING_FOLDER_NAME : String := "bps"

def SUPPORTED_LAUNCHER_MANIFEST_VERSIONS : List Int := [0]

/-! ## Path and string helpers -/

/-- Does the pattern occur as a contiguous run somewhere in the character
list?  (Structural helper for the Python `in` substring test.) -/
def containsSubstrAux (pat : List Char) : List Char → Bool
  | [] => pat.isEmpty
  | c :: rest => pat.isPrefixOf (c :: rest) || containsSubstrAux pat rest

/-- Python `pat in s` substring test (membership of one string in another). -/
def containsSubstr (pat s : String) : Bool :=
  containsSubstrAux pat.toList s.toList

/-- Model of `os.path.join a b` (POSIX separator): an absolute second
component replaces the first; otherwise the two are joined with exactly one
separator between them. -/
def path_join (a b : String) : String :=
  if b.toList.head? = some '/' then b
  else if a.toList = [] || a.toList.getLast? = some '/' then a ++ b
  else a ++ "/" ++ b

/-! ## Directory entries -/

/-- The name/path pair stored for every scanned entry
(`FileDirectory(entry.name, entry.path)` in the source). -/
structure FileDirectory where
  name : String
  path : String
deriving DecidableEq, Repr

/-- Split a character list on the dot character; like Python
`name.split` at dots, always at least one (possibly empty) piece. -/
def splitOnDot : List Char → List (List Char)
  | [] => [[]]
  | c :: rest =>
    if c = '.' then [] :: splitOnDot rest
    else
      match splitOnDot rest with
      | [] => [[c]]
      | p :: ps => (c :: p) :: ps

/-- Rejoin dot-separated pieces. -/
def joinWithDot : List (List Char) → List Char
  | [] => []
  | [p] => p
  | p :: ps => p ++ '.' :: joinWithDot ps

/-- Modelled from the spec: `FileDirectory.get_name_raw` is defined in
`file_management.py`, which is not among the sources.  The spec defines the
raw name as the filename without its extension suffix (`os.path.splitext`
style: drop the part from the last dot on; a dot-free name is unchanged). -/
def FileDirectory.get_name_raw (fd : FileDirectory) : String :=
  let parts := splitOnDot fd.name.toList
  if parts.length ≤ 1 then fd.name
  else String.mk (joinWithDot parts.dropLast)

/-- One result of `os.scandir`: name, path, and the `is_dir` / `is_file`
predicates the validity checks consult. -/
structure DirEntry where
  name : String
  path : String
  is_dir : Bool
  is_file : Bool
deriving DecidableEq, Repr

/-- A child of the games root together with the part of the file system the
scanner inspects for it: whether `<child>/.egstore` exists, and the entries
`os.scandir` yields inside it when it does. -/
structure GameFolderEntry where
  entry : DirEntry
  egstore_exists : Bool
  egstore_entries : List DirEntry
deriving DecidableEq, Repr

/-- Model of `GameDataManager.is_valid_game_folder`: a directory containing the
reserved `.egstore` subfolder. -/
def is_valid_game_folder (g : GameFolderEntry) : Bool :=
  g.entry.is_dir && g.egstore_exists

/-- Model of `GameDataManager.is_valid_launcher_manifest_file`: a file whose name
contains `".item"`. -/
def is_valid_launcher_manifest_file (e : DirEntry) : Bool :=
  e.is_file && containsSubstr LAUNCHER_MANIFEST_FILE_TYPE e.name

/-- Model of `GameDataManager.is_valid_game_manifest_file`: a file whose name
contains `".manifest"`. -/
def is_valid_game_manifest_file (e : DirEntry) : Bool :=
  e.is_file && containsSubstr GAME_MANIFEST_FILE_TYPE e.name

/-! ## Game records -/

/-- The `GameData` dataclass. -/
structure GameData where
  game_folder : FileDirectory
  manifest_folder : FileDirectory
  manifest_file_list : List FileDirectory
deriving DecidableEq, Repr

/-- Outcome of `get_game_data_list`'s loop body for one child of the games
root, distinguishing the silent skip (backup folder name) from the two
warned skips. -/
inductive ScanOutcome where
  | admitted (gd : GameData)
  | skippedSilently
  | skippedInvalidWarned
  | skippedNoManifestWarned
deriving DecidableEq, Repr

/-- Loop body of `GameDataManager.get_game_data_list` for one `game_entry`:
invalid folders are skipped (silently exactly when named like the backup
folder), then the `.egstore` entries are filtered for manifest files, a
folder with none is skipped with a warning, and otherwise a `GameData`
record is built. -/
def scanGameFolder (g : GameFolderEntry) : ScanOutcome :=
  if is_valid_game_folder g = false then
    if g.entry.name ≠ MANIFEST_BACKUP_FOLDER_NAME then .skippedInvalidWarned
    else .skippedSilently
  else
    let game_manifest_folder_path := path_join g.entry.path GAME_MANIFEST_FOLDER_NAME
    let manifest_file_list :=
      (g.egstore_entries.filter is_valid_game_manifest_file).map
        (fun e => FileDirectory.mk e.name e.path)
    if manifest_file_list.length = 0 then .skippedNoManifestWarned
    else
      .admitted
        (GameData.mk (FileDirectory.mk g.entry.name g.entry.path)
          (FileDirectory.mk GAME_MANIFEST_FOLDER_NAME game_manifest_folder_path)
          manifest_file_list)

/-- Model of `GameDataManager.get_game_data_list`, with the games root represented by
the list of children `os.scandir` yields. -/
def get_game_data_list (children : List GameFolderEntry) : List GameData :=
  children.filterMap (fun g =>
    match scanGameFolder g with
    | .admitted gd => some gd
    | _ => none)

/-! ## Manifest matcher -/

/-- Model of `GameDataManager.get_matching_launcher_manifest`: the `next(...)` call
returning the first launcher manifest whose raw name equals the game
manifest's raw name, or `None`. -/
def get_matching_launcher_manifest (game_manifest : FileDirectory)
    (launcher_manifest_file_list : List FileDirectory) : Option FileDirectory :=
  launcher_manifest_file_list.find?
    (fun launcher_manifest =>
      game_manifest.get_name_raw == launcher_manifest.get_name_raw)

/-! ## JSON manifests and the rewriter -/

/-- JSON values as far as the rewriter distinguishes them: it reads one
integer field and writes three string fields; every other value is carried
through untouched, so non-integer non-string values are kept opaque as
their serialized text. -/
inductive JVal where
  | jint (n : Int)
  | jstr (s : String)
  | jother (raw : String)
deriving DecidableEq, Repr

/-- A parsed launcher manifest: the ordered key/value association produced
by `json.load` (Python dicts preserve insertion order; keys are unique). -/
abbrev JObj := List (String × JVal)

/-- Python `data[k]` read on a dict: the value at the first occurrence of
key `k`, if any. -/
def dictGet : JObj → String → Option JVal
  | [], _ => none
  | (k₁, v₁) :: rest, k => if k₁ == k then some v₁ else dictGet rest k

/-- Python `data[k] = v` on a dict: replace the value at an existing key in
place (insertion order kept), otherwise append the new key at the end. -/
def dictSet : JObj → String → JVal → JObj
  | [], k, v => [(k, v)]
  | (k₁, v₁) :: rest, k, v =>
    if k₁ == k then (k₁, v) :: rest
    else (k₁, v₁) :: dictSet rest k v

/-- Model of `GameDataManager.assert_manifest_is_supported` as a predicate: `true`
when the assertion passes, `false` when the Python code prints the error and
calls `sys.exit(1)`.  Python `x in [0]` compares with `==`, so only the JSON
integer value can be supported. -/
def assert_manifest_is_supported (format_version : JVal) : Bool :=
  match format_version with
  | .jint n => SUPPORTED_LAUNCHER_MANIFEST_VERSIONS.contains n
  | _ => false

/-- Ways the rewriter (or the surrounding loop) terminates the whole
process: `sys.exit(1)` from the version gate, an uncaught `KeyError` when
`FormatVersion` is absent, or an uncaught `FileNotFoundError` from `open`. -/
inductive ProcExit where
  | unsupportedVersion
  | keyError
  | fileNotFound
deriving DecidableEq, Repr

/-- Model of `GameDataManager.update_manifest_location_references` on the parsed
content of one manifest file: read `FormatVersion` (KeyError if absent),
run the version gate (process exit on failure, before anything is written),
then overwrite the three location fields and write the result back over the
same file.  `.ok` carries the new file content; `.error` means the process
terminated with the file unwritten. -/
def update_manifest_location_references (data : JObj) (updated_game_folder : String) :
    Except ProcExit JObj :=
  match dictGet data "FormatVersion" with
  | none => .error .keyError
  | some fv =>
    if assert_manifest_is_supported fv = false then .error .unsupportedVersion
    else
      let manifest_location := path_join updated_game_folder GAME_MANIFEST_FOLDER_NAME
      let staging_location := path_join manifest_location STAGING_FOLDER_NAME
      .ok (dictSet (dictSet (dictSet data "InstallLocation" (.jstr updated_game_folder))
            "ManifestLocation" (.jstr manifest_location))
            "StagingLocation" (.jstr staging_location))

/-- A sequential batch of manifest rewrites, as performed by the loops in
`move_game_installation` and `relink_manifests`: each file is rewritten in
order; `sys.exit` (or an uncaught exception) inside
`update_manifest_location_references` terminates the process, leaving the
failing file and every later file with their original contents.  The `Bool`
records whether the process exited. -/
def rewriteBatch : List JObj → String → List JObj × Bool
  | [], _ => ([], false)
  | d :: rest, dest =>
    match update_manifest_location_references d dest with
    | .error _ => (d :: rest, true)
    | .ok d' =>
      let r := rewriteBatch rest dest
      (d' :: r.1, r.2)

/-! ## The per-game loop of `move_game_installation` -/

/-- A file inside a backup folder: its filename together with its parsed
JSON content. -/
structure BackupFile where
  name : String
  content : JObj
deriving DecidableEq, Repr

/-- The slice of the file system `move_game_installation` mutates: the
files of the source-side `_MANIFEST_BACKUPS` folder, the files of the
destination-side backup folder, the game folder names at the source games
root, and the folder names present at the destination. -/
structure MoveFS where
  source_backup : List BackupFile
  dest_backup : List BackupFile
  source_games : List String
  dest_folders : List String
deriving DecidableEq, Repr

/-- Model of `GameDataManager.get_launcher_manifest_files` applied to a backup
folder: the files whose name contains `".item"`, as `FileDirectory` entries
(path = folder/name). -/
def get_launcher_manifest_files (folder : String) (entries : List BackupFile) :
    List FileDirectory :=
  (entries.filter (fun e => containsSubstr LAUNCHER_MANIFEST_FILE_TYPE e.name)).map
    (fun e => FileDirectory.mk e.name (path_join folder e.name))

/-- Content of the file named `n` in a backup folder, if present
(`open(path)` raises `FileNotFoundError` otherwise). -/
def lookupFile (entries : List BackupFile) (n : String) : Option JObj :=
  (entries.find? (fun e => e.name == n)).map (fun e => e.content)

/-- Overwrite the content of the file named `n` (the in-place
`json.dump` + `truncate` rewrite of `update_manifest_location_references`). -/
def writeFile (entries : List BackupFile) (n : String) (c : JObj) : List BackupFile :=
  entries.map (fun e => if e.name == n then BackupFile.mk n c else e)

/-- Add a file to a folder, overwriting any existing file of the same name
(`shutil.move` into a directory replaces a same-named file). -/
def putFile (entries : List BackupFile) (n : String) (c : JObj) : List BackupFile :=
  if (entries.find? (fun e => e.name == n)).isSome then writeFile entries n c
  else entries ++ [BackupFile.mk n c]

/-- Line 272, `shutil.move(matching_launcher_manifest.path,
destination_backup_folder)`: the named file leaves the source backup folder
and appears in the destination backup folder. -/
def move_backup_file (fs : MoveFS) (n : String) (c : JObj) : MoveFS :=
  MoveFS.mk (fs.source_backup.eraseP (fun e => e.name == n))
    (putFile fs.dest_backup n c) fs.source_games fs.dest_folders

/-- Line 277, `shutil.move(selected_game.game_folder.path,
destination_path)`: the game folder leaves the source games root and
appears at the destination. -/
def move_game_folder (fs : MoveFS) (n : String) : MoveFS :=
  MoveFS.mk fs.source_backup fs.dest_backup
    (fs.source_games.eraseP (fun m => m == n)) (fs.dest_folders ++ [n])

/-- Observable mutations performed while processing one game, in order. -/
inductive MoveEvent where
  | manifestRewritten (name : String)
  | manifestMoved (name : String)
  | gameFolderMoved (name : String)
deriving DecidableEq, Repr

/-- Result of the inner manifest loop (lines 260-272): either the process
exited (`sys.exit` / uncaught exception) in the state it had reached, or
the loop completed with the final value of `found_all_manifests`. -/
inductive ManifestLoopResult where
  | exited (fs : MoveFS) (tr : List MoveEvent) (e : ProcExit)
  | completed (fs : MoveFS) (tr : List MoveEvent) (found_all_manifests : Bool)
deriving DecidableEq, Repr

/-- Record two events (one manifest's rewrite and move) in front of the
trace of a manifest-loop result. -/
def prependEvents (a b : MoveEvent) : ManifestLoopResult → ManifestLoopResult
  | .exited fs tr e => .exited fs (a :: b :: tr) e
  | .completed fs tr found => .completed fs (a :: b :: tr) found

/-- The inner loop of `move_game_installation` over the selected game's
manifest files (lines 260-272): each game manifest is matched against the
`backed_up` list captured before the loop; on the first unmatched manifest
the loop breaks with `found_all_manifests = false`; a matched manifest's
backup file is rewritten in place to point at
`path_join destination_path game_folder_name` and then moved into the
destination backup folder. -/
def process_game_manifests (backed_up : List FileDirectory)
    (destination_path game_folder_name : String) :
    MoveFS → List FileDirectory → ManifestLoopResult
  | fs, [] => .completed fs [] true
  | fs, game_manifest :: rest =>
    match get_matching_launcher_manifest game_manifest backed_up with
    | none => .completed fs [] false
    | some lm =>
      match lookupFile fs.source_backup lm.name with
      | none => .exited fs [] .fileNotFound
      | some content =>
        let new_game_folder_path := path_join destination_path game_folder_name
        match update_manifest_location_references content new_game_folder_path with
        | .error e => .exited fs [] e
        | .ok content' =>
          let fs1 := MoveFS.mk (writeFile fs.source_backup lm.name content')
            fs.dest_backup fs.source_games fs.dest_folders
          let fs2 := move_backup_file fs1 lm.name content'
          prependEvents (.manifestRewritten lm.name) (.manifestMoved lm.name)
            (process_game_manifests backed_up destination_path game_folder_name fs2 rest)

/-- Result of processing one or more selected games: the process either
exited midway or finished, in either case with the state reached and the
trace of mutations. -/
inductive GameRunResult where
  | exited (fs : MoveFS) (tr : List MoveEvent) (e : ProcExit)
  | finished (fs : MoveFS) (tr : List MoveEvent)
deriving DecidableEq, Repr

/-- Record an earlier trace in front of a game-run result. -/
def prependTrace (tr : List MoveEvent) : GameRunResult → GameRunResult
  | .exited fs tr' e => .exited fs (tr ++ tr') e
  | .finished fs tr' => .finished fs (tr ++ tr')

/-- The body of the `for selected_game in enumerate(selected_games_list)`
loop (lines 247-280) for one game: skip with a warning when the destination
already has a folder of the game's raw name; otherwise re-scan the source
backup folder, run the manifest loop, and move the install folder exactly
when every manifest was matched. -/
def process_game (manifest_backup_folder destination_path : String)
    (fs : MoveFS) (selected_game : GameData) : GameRunResult :=
  if fs.dest_folders.contains selected_game.game_folder.get_name_raw then
    .finished fs []
  else
    let backed_up := get_launcher_manifest_files manifest_backup_folder fs.source_backup
    match process_game_manifests backed_up destination_path
        selected_game.game_folder.name fs selected_game.manifest_file_list with
    | .exited fs' tr e => .exited fs' tr e
    | .completed fs' tr true =>
      .finished (move_game_folder fs' selected_game.game_folder.name)
        (tr ++ [.gameFolderMoved selected_game.game_folder.name])
    | .completed fs' tr false => .finished fs' tr

/-- The whole selection loop of `move_game_installation`: games are
processed in selection order; skips are local, while a process exit stops
every remaining game. -/
def process_games (manifest_backup_folder destination_path : String) :
    MoveFS → List GameData → GameRunResult
  | fs, [] => .finished fs []
  | fs, g :: rest =>
    match process_game manifest_backup_folder destination_path fs g with
    | .exited fs' tr e => .exited fs' tr e
    | .finished fs' tr =>
      prependTrace tr (process_games manifest_backup_folder destination_path fs' rest)

/-- Forget the `found_all_manifests` flag of a manifest-loop result,
viewing it as the outcome of the whole game when the install folder is not
moved afterwards. -/
def manifest_loop_outcome : ManifestLoopResult → GameRunResult
  | .exited fs tr e => .exited fs tr e
  | .completed fs tr _ => .finished fs tr

/-- The file-system state a manifest-loop result carries. -/
def loopFS : ManifestLoopResult → MoveFS
  | .exited fs _ _ => fs
  | .completed fs _ _ => fs

/-- The event trace a manifest-loop result carries. -/
def loopTrace : ManifestLoopResult → List MoveEvent
  | .exited _ tr _ => tr
  | .completed _ tr _ => tr

/-- Force the `found_all_manifests` flag of a manifest-loop result to
`false`, leaving state and trace alone (how a loop that is known to contain
an unmatched manifest ends). -/
def dropFlag : ManifestLoopResult → ManifestLoopResult
  | .exited fs tr e => .exited fs tr e
  | .completed fs tr _ => .completed fs tr false

/-- Fixture: a source-side state whose backup folder holds the single
launcher manifest `Game1.item`, with one game folder `GameX` at the source
root and only the backup folder at the destination. -/
def exampleMoveFS : MoveFS :=
  MoveFS.mk
    [BackupFile.mk "Game1.item"
      [("FormatVersion", JVal.jint 0), ("InstallLocation", JVal.jstr "/g/GameX")]]
    [] ["GameX"] ["_MANIFEST_BACKUPS"]

/-- Fixture: a game with two manifest files of which only the first has a
backed-up launcher manifest in `exampleMoveFS`. -/
def exampleTwoManifestGame : GameData :=
  GameData.mk (FileDirectory.mk "GameX" "/g/GameX")
    (FileDirectory.mk ".egstore" "/g/GameX/.egstore")
    [FileDirectory.mk "Game1.manifest" "/g/GameX/.egstore/Game1.manifest",
     FileDirectory.mk "Game2.manifest" "/g/GameX/.egstore/Game2.manifest"]

/-- Fixture: a game whose single manifest file has a backed-up launcher
manifest in `exampleMoveFS`. -/
def exampleOneManifestGame : GameData :=
  GameData.mk (FileDirectory.mk "GameX" "/g/GameX")
    (FileDirectory.mk ".egstore" "/g/GameX/.egstore")
    [FileDirectory.mk "Game1.manifest" "/g/GameX/.egstore/Game1.manifest"]

/-- The content of `Game1.item` from `exampleMoveFS` after being rewritten
for destination `/d` and game folder `GameX`. -/
def exampleRewrittenItem : JObj :=
  [("FormatVersion", JVal.jint 0), ("InstallLocation", JVal.jstr "/d/GameX"),
   ("ManifestLocation", JVal.jstr "/d/GameX/.egstore"),
   ("StagingLocation", JVal.jstr "/d/GameX/.egstore/bps")]

/-- Outcome of the destination check at lines 220-226. -/
inductive PreflightResult where
  | exitSourceEqualsDest
  | proceed (destination_path : String)
deriving DecidableEq, Repr

/-- Lines 220-226 of `move_game_installation`: the entered destination is
rejected with `sys.exit(1)` exactly when it is string-equal to the
configured games root; otherwise the operation proceeds with it (to the
existence assertion and the confirmation prompt). -/
def destination_preflight (games_folder destination_path : String) : PreflightResult :=
  if destination_path == games_folder then .exitSourceEqualsDest
  else .proceed destination_path

/-! ## Dictionary lemmas -/

theorem dictGet_dictSet_self (d : JObj) (k : String) (v : JVal) :
    dictGet (dictSet d k v) k = some v := by
  induction d with
  | nil => simp [dictSet, dictGet]
  | cons p rest ih =>
    obtain ⟨k₁, v₁⟩ := p
    by_cases h : k₁ = k
    · simp [dictSet, dictGet, h]
    · simp [dictSet, dictGet, h, ih]

theorem dictGet_dictSet_ne (d : JObj) (k k' : String) (v : JVal) (h : k' ≠ k) :
    dictGet (dictSet d k v) k' = dictGet d k' := by
  have hkk : (k == k') = false := beq_eq_false_iff_ne.mpr (Ne.symm h)
  induction d with
  | nil => simp [dictSet, dictGet, hkk]
  | cons p rest ih =>
    obtain ⟨k₁, v₁⟩ := p
    by_cases h₁ : k₁ = k
    · subst h₁
      simp [dictSet, dictGet, hkk]
    · simp [dictSet, dictGet, h₁, ih]

/-- In the supported-version case the rewriter returns exactly the triple
field update. -/
theorem update_manifest_ok_eq (data : JObj) (p : String) (fv : JVal)
    (hget : dictGet data "FormatVersion" = some fv)
    (hsup : assert_manifest_is_supported fv = true) :
    update_manifest_location_references data p =
      .ok (dictSet (dictSet (dictSet data "InstallLocation" (.jstr p))
        "ManifestLocation" (.jstr (path_join p GAME_MANIFEST_FOLDER_NAME)))
        "StagingLocation"
        (.jstr (path_join (path_join p GAME_MANIFEST_FOLDER_NAME) STAGING_FOLDER_NAME))) := by
  unfold update_manifest_location_references
  rw [hget]
  simp [hsup]

/-! ## Claim theorems: rewriter -/

/-- C3: for every launcher manifest with a supported `FormatVersion` and
every destination path `p`, after `update_manifest_location_references` the
stored fields satisfy `InstallLocation = p`,
`ManifestLocation = p ⧸ ".egstore"` and
`StagingLocation = ManifestLocation ⧸ "bps"`. -/
theorem c3_location_fields_updated (data : JObj) (p : String) (fv : JVal)
    (hget : dictGet data "FormatVersion" = some fv)
    (hsup : assert_manifest_is_supported fv = true) :
    ∃ d', update_manifest_location_references data p = .ok d' ∧
      dictGet d' "InstallLocation" = some (.jstr p) ∧
      dictGet d' "ManifestLocation" =
        some (.jstr (path_join p GAME_MANIFEST_FOLDER_NAME)) ∧
      dictGet d' "StagingLocation" =
        some (.jstr (path_join (path_join p GAME_MANIFEST_FOLDER_NAME)
          STAGING_FOLDER_NAME)) := by
  refine ⟨_, update_manifest_ok_eq data p fv hget hsup, ?_, ?_, ?_⟩
  · rw [dictGet_dictSet_ne _ _ _ _ (by decide), dictGet_dictSet_ne _ _ _ _ (by decide),
      dictGet_dictSet_self]
  · rw [dictGet_dictSet_ne _ _ _ _ (by decide), dictGet_dictSet_self]
  · rw [dictGet_dictSet_self]

/-- Witness for C3 at a concrete manifest and destination. -/
theorem c3_location_fields_updated_witness :
    ∃ d', update_manifest_location_references
        [("FormatVersion", JVal.jint 0), ("InstallLocation", JVal.jstr "/old/GameA")]
        "/dest/GameA" = .ok d' ∧
      dictGet d' "InstallLocation" = some (.jstr "/dest/GameA") ∧
      dictGet d' "ManifestLocation" =
        some (.jstr (path_join "/dest/GameA" GAME_MANIFEST_FOLDER_NAME)) ∧
      dictGet d' "StagingLocation" =
        some (.jstr (path_join (path_join "/dest/GameA" GAME_MANIFEST_FOLDER_NAME)
          STAGING_FOLDER_NAME)) :=
  c3_location_fields_updated _ _ (JVal.jint 0) (by rfl) (by rfl)

/-- C7: for every launcher manifest with a supported `FormatVersion`,
`update_manifest_location_references` changes only the values of
`InstallLocation`, `ManifestLocation` and `StagingLocation`; every other
key (including `FormatVersion`) keeps its value in the rewritten file. -/
theorem c7_other_keys_preserved (data : JObj) (p : String) (d' : JObj) (k : String)
    (hok : update_manifest_location_references data p = .ok d')
    (hk1 : k ≠ "InstallLocation") (hk2 : k ≠ "ManifestLocation")
    (hk3 : k ≠ "StagingLocation") :
    dictGet d' k = dictGet data k := by
  unfold update_manifest_location_references at hok
  rcases hget : dictGet data "FormatVersion" with _ | fv
  · rw [hget] at hok
    exact absurd hok (by simp)
  · rw [hget] at hok
    by_cases hsup : assert_manifest_is_supported fv = false
    · simp [hsup] at hok
    · simp [hsup] at hok
      rw [← hok, dictGet_dictSet_ne _ _ _ _ hk3, dictGet_dictSet_ne _ _ _ _ hk2,
        dictGet_dictSet_ne _ _ _ _ hk1]

/-- Witness for C7: `FormatVersion` and an arbitrary extra key survive a
concrete rewrite untouched. -/
theorem c7_other_keys_preserved_witness :
    ∃ d', update_manifest_location_references
        [("FormatVersion", JVal.jint 0), ("AppName", JVal.jstr "GameA"),
         ("InstallLocation", JVal.jstr "/old/GameA")] "/dest/GameA" = .ok d' ∧
      dictGet d' "FormatVersion" =
        dictGet [("FormatVersion", JVal.jint 0), ("AppName", JVal.jstr "GameA"),
          ("InstallLocation", JVal.jstr "/old/GameA")] "FormatVersion" ∧
      dictGet d' "AppName" =
        dictGet [("FormatVersion", JVal.jint 0), ("AppName", JVal.jstr "GameA"),
          ("InstallLocation", JVal.jstr "/old/GameA")] "AppName" := by
  refine ⟨_, rfl, ?_, ?_⟩
  · exact c7_other_keys_preserved _ "/dest/GameA" _ "FormatVersion" rfl
      (by decide) (by decide) (by decide)
  · exact c7_other_keys_preserved _ "/dest/GameA" _ "AppName" rfl
      (by decide) (by decide) (by decide)

/-- C2: a launcher manifest whose parsed `FormatVersion` is outside the
allow-list makes `update_manifest_location_references` terminate the whole
process before writing anything: the call returns the `sys.exit(1)` outcome
with nothing written, and in a sequential batch that manifest and every
manifest after it keep their original contents. -/
theorem c2_unsupported_version_halts (d : JObj) (fv : JVal) (dest : String)
    (pre post : List JObj)
    (hget : dictGet d "FormatVersion" = some fv)
    (hbad : assert_manifest_is_supported fv = false) :
    update_manifest_location_references d dest = .error .unsupportedVersion ∧
    ∃ pre', pre'.length = pre.length ∧
      rewriteBatch (pre ++ d :: post) dest = (pre' ++ d :: post, true) := by
  have hd : update_manifest_location_references d dest = .error .unsupportedVersion := by
    unfold update_manifest_location_references
    rw [hget]
    simp [hbad]
  refine ⟨hd, ?_⟩
  induction pre with
  | nil =>
    refine ⟨[], rfl, ?_⟩
    simp [rewriteBatch, hd]
  | cons a pre ih =>
    obtain ⟨pre', hlen, hbatch⟩ := ih
    rcases hu : update_manifest_location_references a dest with e | a'
    · exact ⟨a :: pre, rfl, by simp [rewriteBatch, hu]⟩
    · exact ⟨a' :: pre', by simp [hlen], by simp [rewriteBatch, hu, hbatch]⟩

/-- Witness for C2: a `FormatVersion 7` manifest halts a concrete batch of
three, leaving it and the manifest after it unchanged. -/
theorem c2_unsupported_version_halts_witness :
    update_manifest_location_references [("FormatVersion", JVal.jint 7)] "/dest"
        = .error .unsupportedVersion ∧
    ∃ pre', pre'.length = 1 ∧
      rewriteBatch
        [[("FormatVersion", JVal.jint 0)], [("FormatVersion", JVal.jint 7)],
         [("FormatVersion", JVal.jint 0), ("AppName", JVal.jstr "B")]] "/dest" =
        (pre' ++ [[("FormatVersion", JVal.jint 7)],
          [("FormatVersion", JVal.jint 0), ("AppName", JVal.jstr "B")]], true) := by
  have h := c2_unsupported_version_halts [("FormatVersion", JVal.jint 7)] (JVal.jint 7)
    "/dest" [[("FormatVersion", JVal.jint 0)]]
    [[("FormatVersion", JVal.jint 0), ("AppName", JVal.jstr "B")]] (by rfl) (by rfl)
  exact ⟨h.1, by obtain ⟨p, hl, hb⟩ := h.2; exact ⟨p, by simpa using hl, by simpa using hb⟩⟩

/-! ## Claim theorems: matcher -/

/-- C5: `get_matching_launcher_manifest` returns the first launcher
manifest with the same raw name, `none` when no raw name matches, and on a
one-element list returns that element iff the raw names are equal.  (In the
embedding the function is a pure list scan with no side effects.) -/
theorem c5_matcher_first_raw_name_match (gm : FileDirectory) (L : List FileDirectory) :
    ((∀ lm ∈ L, gm.get_name_raw ≠ lm.get_name_raw) →
      get_matching_launcher_manifest gm L = none) ∧
    (∀ pre lm post, L = pre ++ lm :: post → gm.get_name_raw = lm.get_name_raw →
      (∀ x ∈ pre, gm.get_name_raw ≠ x.get_name_raw) →
      get_matching_launcher_manifest gm L = some lm) ∧
    (∀ lm, get_matching_launcher_manifest gm [lm] = some lm ↔
      gm.get_name_raw = lm.get_name_raw) := by
  refine ⟨?_, ?_, ?_⟩
  · intro hall
    unfold get_matching_launcher_manifest
    rw [List.find?_eq_none]
    intro x hx
    simpa using hall x hx
  · intro pre lm post hL heq hpre
    subst hL
    unfold get_matching_launcher_manifest
    induction pre with
    | nil => simp [List.find?, heq]
    | cons a pre ih =>
      have ha : (gm.get_name_raw == a.get_name_raw) = false := by
        simpa using hpre a (by simp)
      simpa [List.find?, ha] using ih (fun x hx => hpre x (by simp [hx]))
  · intro lm
    unfold get_matching_launcher_manifest
    by_cases h : gm.get_name_raw = lm.get_name_raw
    · simp [List.find?, h]
    · have hb : (gm.get_name_raw == lm.get_name_raw) = false :=
        beq_eq_false_iff_ne.mpr h
      simp [List.find?, hb, h]

/-- Witness for C5: a one-element match and a one-element non-match, both
obtained from the theorem. -/
theorem c5_matcher_first_raw_name_match_witness :
    get_matching_launcher_manifest (FileDirectory.mk "GameA.manifest" "/g/GameA/.egstore/GameA.manifest")
        [FileDirectory.mk "GameA.item" "/b/GameA.item"] =
      some (FileDirectory.mk "GameA.item" "/b/GameA.item") ∧
    get_matching_launcher_manifest (FileDirectory.mk "GameA.manifest" "/g/GameA/.egstore/GameA.manifest")
        [FileDirectory.mk "GameB.item" "/b/GameB.item"] = none := by
  constructor
  · exact ((c5_matcher_first_raw_name_match
      (FileDirectory.mk "GameA.manifest" "/g/GameA/.egstore/GameA.manifest")
      [FileDirectory.mk "GameA.item" "/b/GameA.item"]).2.2
      (FileDirectory.mk "GameA.item" "/b/GameA.item")).mpr (by decide)
  · exact (c5_matcher_first_raw_name_match
      (FileDirectory.mk "GameA.manifest" "/g/GameA/.egstore/GameA.manifest")
      [FileDirectory.mk "GameB.item" "/b/GameB.item"]).1 (by decide)

/-! ## Claim theorems: discovery -/

/-- A record admitted by the scanner has a non-empty manifest list. -/
theorem scanGameFolder_admitted_nonempty (g : GameFolderEntry) (gd : GameData)
    (h : scanGameFolder g = .admitted gd) : gd.manifest_file_list ≠ [] := by
  unfold scanGameFolder at h
  rcases hv : is_valid_game_folder g with _ | _
  · rw [hv] at h
    by_cases hn : g.entry.name ≠ MANIFEST_BACKUP_FOLDER_NAME <;> simp [hn] at h
  · rw [hv] at h
    simp only [Bool.true_eq_false, if_false] at h
    by_cases hz : ((g.egstore_entries.filter is_valid_game_manifest_file).map
        (fun e => FileDirectory.mk e.name e.path)).length = 0
    · simp [hz] at h
    · simp only [hz, if_false, ScanOutcome.admitted.injEq] at h
      subst h
      simpa [← List.length_eq_zero] using hz

/-- C6: every Game Record in the catalog produced by `get_game_data_list`
has a non-empty `manifest_file_list`; a candidate folder yielding no
manifest files is never turned into a record. -/
theorem c6_catalog_manifest_files_nonempty (children : List GameFolderEntry)
    (gd : GameData) (h : gd ∈ get_game_data_list children) :
    gd.manifest_file_list ≠ [] := by
  unfold get_game_data_list at h
  rw [List.mem_filterMap] at h
  obtain ⟨g, _, heq⟩ := h
  rcases hsc : scanGameFolder g with gd' | _ | _ | _ <;> rw [hsc] at heq <;>
    simp at heq
  exact heq ▸ scanGameFolder_admitted_nonempty g gd' hsc

/-- Witness for C6: a concrete one-game catalog, produced by the scanner,
whose record the theorem shows has manifests. -/
theorem c6_catalog_manifest_files_nonempty_witness :
    ∃ gd, gd ∈ get_game_data_list
        [GameFolderEntry.mk (DirEntry.mk "GameA" "/g/GameA" true false) true
          [DirEntry.mk "GameA.manifest" "/g/GameA/.egstore/GameA.manifest" false true]] ∧
      gd.manifest_file_list ≠ [] := by
  refine ⟨GameData.mk (FileDirectory.mk "GameA" "/g/GameA")
    (FileDirectory.mk GAME_MANIFEST_FOLDER_NAME "/g/GameA/.egstore")
    [FileDirectory.mk "GameA.manifest" "/g/GameA/.egstore/GameA.manifest"], ?_, ?_⟩
  · decide
  · exact c6_catalog_manifest_files_nonempty
      [GameFolderEntry.mk (DirEntry.mk "GameA" "/g/GameA" true false) true
        [DirEntry.mk "GameA.manifest" "/g/GameA/.egstore/GameA.manifest" false true]]
      (GameData.mk (FileDirectory.mk "GameA" "/g/GameA")
        (FileDirectory.mk GAME_MANIFEST_FOLDER_NAME "/g/GameA/.egstore")
        [FileDirectory.mk "GameA.manifest" "/g/GameA/.egstore/GameA.manifest"])
      (by decide)

/-- C9: an entry named `_MANIFEST_BACKUPS` under the games root is skipped
silently only when it is not a valid game folder; when that directory has a
`.egstore` subfolder holding at least one manifest file, the scan admits it
to the catalog as a game. -/
theorem c9_backup_folder_can_be_admitted (g : GameFolderEntry)
    (hname : g.entry.name = MANIFEST_BACKUP_FOLDER_NAME) :
    (is_valid_game_folder g = false → scanGameFolder g = .skippedSilently) ∧
    (is_valid_game_folder g = true →
      g.egstore_entries.filter is_valid_game_manifest_file ≠ [] →
      ∀ children, g ∈ children →
        ∃ gd, scanGameFolder g = .admitted gd ∧
          gd ∈ get_game_data_list children ∧
          gd.game_folder.name = MANIFEST_BACKUP_FOLDER_NAME) := by
  constructor
  · intro hv
    unfold scanGameFolder
    simp [hv, hname]
  · intro hv hne children hmem
    have hz : ((g.egstore_entries.filter is_valid_game_manifest_file).map
        (fun e => FileDirectory.mk e.name e.path)).length ≠ 0 := by
      simpa [List.length_eq_zero] using hne
    have hadm : scanGameFolder g = .admitted
        (GameData.mk (FileDirectory.mk g.entry.name g.entry.path)
          (FileDirectory.mk GAME_MANIFEST_FOLDER_NAME
            (path_join g.entry.path GAME_MANIFEST_FOLDER_NAME))
          ((g.egstore_entries.filter is_valid_game_manifest_file).map
            (fun e => FileDirectory.mk e.name e.path))) := by
      have hex : ∃ x ∈ g.egstore_entries, is_valid_game_manifest_file x = true := by
        rcases List.exists_mem_of_ne_nil _ hne with ⟨x, hx⟩
        exact ⟨x, (List.mem_filter.mp hx).1, (List.mem_filter.mp hx).2⟩
      simp [scanGameFolder, hv, hz, hex]
    refine ⟨_, hadm, ?_, ?_⟩
    · rw [get_game_data_list, List.mem_filterMap]
      exact ⟨g, hmem, by rw [hadm]⟩
    · simpa using hname

/-- Witness for C9: a backups-named directory with a manifest inside its
`.egstore` is admitted to a concrete catalog. -/
theorem c9_backup_folder_can_be_admitted_witness :
    ∃ gd, scanGameFolder
        (GameFolderEntry.mk (DirEntry.mk "_MANIFEST_BACKUPS" "/g/_MANIFEST_BACKUPS" true false) true
          [DirEntry.mk "X.manifest" "/g/_MANIFEST_BACKUPS/.egstore/X.manifest" false true]) =
        .admitted gd ∧
      gd ∈ get_game_data_list
        [GameFolderEntry.mk (DirEntry.mk "_MANIFEST_BACKUPS" "/g/_MANIFEST_BACKUPS" true false) true
          [DirEntry.mk "X.manifest" "/g/_MANIFEST_BACKUPS/.egstore/X.manifest" false true]] ∧
      gd.game_folder.name = MANIFEST_BACKUP_FOLDER_NAME :=
  (c9_backup_folder_can_be_admitted _ (by rfl)).2 (by decide) (by decide) _ (by decide)

/-! ## Claim theorems: destination guard -/

/-- C10: the source-equals-destination rejection fires iff the entered
destination string equals the games-root string character for character;
with a trailing separator appended, the same directory passes the guard and
the operation proceeds. -/
theorem c10_destination_guard_is_string_equality (games_folder destination_path : String) :
    (destination_preflight games_folder destination_path = .exitSourceEqualsDest ↔
      destination_path = games_folder) ∧
    destination_preflight games_folder (games_folder ++ "/") =
      .proceed (games_folder ++ "/") := by
  constructor
  · unfold destination_preflight
    by_cases h : destination_path = games_folder <;> simp [h]
  · unfold destination_preflight
    have hne : games_folder ++ "/" ≠ games_folder := by
      intro h
      have h2 := congrArg String.length h
      rw [String.length_append] at h2
      have h3 : ("/" : String).length = 1 := rfl
      omega
    simp [hne]

/-- Witness for C10 at a concrete games root. -/
theorem c10_destination_guard_is_string_equality_witness :
    destination_preflight "/games" "/games" = .exitSourceEqualsDest ∧
    destination_preflight "/games" ("/games" ++ "/") = .proceed ("/games" ++ "/") :=
  ⟨(c10_destination_guard_is_string_equality "/games" "/games").1.mpr rfl,
    (c10_destination_guard_is_string_equality "/games" "/games").2⟩

/-! ## Lemmas about the manifest loop -/

theorem prependEvents_loopTrace (a b : MoveEvent) (r : ManifestLoopResult) :
    loopTrace (prependEvents a b r) = a :: b :: loopTrace r := by
  cases r <;> rfl

theorem prependEvents_loopFS (a b : MoveEvent) (r : ManifestLoopResult) :
    loopFS (prependEvents a b r) = loopFS r := by
  cases r <;> rfl

theorem prependEvents_dropFlag (a b : MoveEvent) (r : ManifestLoopResult) :
    prependEvents a b (dropFlag r) = dropFlag (prependEvents a b r) := by
  cases r <;> rfl

theorem prependTrace_nil (r : GameRunResult) : prependTrace [] r = r := by
  cases r <;> simp [prependTrace]

theorem prependEvents_eq_completed (a b : MoveEvent) (r : ManifestLoopResult)
    (fs : MoveFS) (tr : List MoveEvent) (found : Bool)
    (h : prependEvents a b r = .completed fs tr found) :
    ∃ tr', tr = a :: b :: tr' ∧ r = .completed fs tr' found := by
  cases r with
  | exited f t e => simp [prependEvents] at h
  | completed f t found' =>
    simp only [prependEvents, ManifestLoopResult.completed.injEq] at h
    obtain ⟨h1, h2, h3⟩ := h
    exact ⟨t, h2.symm, by rw [h1, h3]⟩

/-- The manifest loop only ever records manifest events: no
`gameFolderMoved` event appears in its trace. -/
theorem loop_trace_no_folder_move (backed_up : List FileDirectory)
    (dest gname : String) :
    ∀ (ms : List FileDirectory) (fs : MoveFS) (n : String),
      MoveEvent.gameFolderMoved n ∉
        loopTrace (process_game_manifests backed_up dest gname fs ms) := by
  intro ms
  induction ms with
  | nil =>
    intro fs n
    simp [process_game_manifests, loopTrace]
  | cons gm rest ih =>
    intro fs n
    unfold process_game_manifests
    cases hm : get_matching_launcher_manifest gm backed_up with
    | none => simp [loopTrace]
    | some lm =>
      cases hl : lookupFile fs.source_backup lm.name with
      | none => simp [hl, loopTrace]
      | some content =>
        cases hu : update_manifest_location_references content
            (path_join dest gname) with
        | error e => simp [hl, hu, loopTrace]
        | ok c' =>
          simp only [hl, hu, prependEvents_loopTrace, List.mem_cons]
          push_neg
          exact ⟨by simp, by simp, ih _ n⟩

/-- The manifest loop never touches the game folders at the source root nor
the folders at the destination root. -/
theorem loop_preserves_folders (backed_up : List FileDirectory)
    (dest gname : String) :
    ∀ (ms : List FileDirectory) (fs : MoveFS),
      (loopFS (process_game_manifests backed_up dest gname fs ms)).source_games =
        fs.source_games ∧
      (loopFS (process_game_manifests backed_up dest gname fs ms)).dest_folders =
        fs.dest_folders := by
  intro ms
  induction ms with
  | nil =>
    intro fs
    simp [process_game_manifests, loopFS]
  | cons gm rest ih =>
    intro fs
    unfold process_game_manifests
    cases hm : get_matching_launcher_manifest gm backed_up with
    | none => simp [loopFS]
    | some lm =>
      cases hl : lookupFile fs.source_backup lm.name with
      | none => simp [hl, loopFS]
      | some content =>
        cases hu : update_manifest_location_references content
            (path_join dest gname) with
        | error e => simp [hl, hu, loopFS]
        | ok c' =>
          simp only [hl, hu, prependEvents_loopFS]
          simpa [move_backup_file] using
            ih (move_backup_file (MoveFS.mk (writeFile fs.source_backup lm.name c')
              fs.dest_backup fs.source_games fs.dest_folders) lm.name c')

/-- A manifest loop that completes with `found_all_manifests = true` has
matched every game manifest and recorded a rewrite and a move event for
each match. -/
theorem loop_completed_true_all_matched (backed_up : List FileDirectory)
    (dest gname : String) :
    ∀ (ms : List FileDirectory) (fs fs' : MoveFS) (tr : List MoveEvent),
      process_game_manifests backed_up dest gname fs ms = .completed fs' tr true →
      ∀ gm ∈ ms, ∃ lm, get_matching_launcher_manifest gm backed_up = some lm ∧
        MoveEvent.manifestRewritten lm.name ∈ tr ∧
        MoveEvent.manifestMoved lm.name ∈ tr := by
  intro ms
  induction ms with
  | nil =>
    intro fs fs' tr _ gm hgm
    simp at hgm
  | cons gm0 rest ih =>
    intro fs fs' tr h gm hgm
    unfold process_game_manifests at h
    cases hm : get_matching_launcher_manifest gm0 backed_up with
    | none =>
      rw [hm] at h
      simp at h
    | some lm0 =>
      rw [hm] at h
      cases hl : lookupFile fs.source_backup lm0.name with
      | none =>
        simp [hl] at h
      | some content =>
        cases hu : update_manifest_location_references content
            (path_join dest gname) with
        | error e =>
          simp [hl, hu] at h
        | ok c' =>
          simp only [hl, hu] at h
          obtain ⟨tr', htr, hrec⟩ := prependEvents_eq_completed _ _ _ _ _ _ h
          rcases List.mem_cons.mp hgm with hgm0 | hgmrest
          · subst hgm0
            exact ⟨lm0, hm, by simp [htr], by simp [htr]⟩
          · obtain ⟨lm, hlm, hr1, hr2⟩ := ih _ _ _ hrec gm hgmrest
            exact ⟨lm, hlm, by simp [htr, hr1], by simp [htr, hr2]⟩

/-- When some `gm` in the list has no match, the loop over
`pre ++ gm :: post` is the loop over `pre` with the flag forced to
`false`: everything from the unmatched manifest on is untouched. -/
theorem loop_break_at_unmatched (backed_up : List FileDirectory)
    (dest gname : String) (gm : FileDirectory) (post : List FileDirectory)
    (hgm : get_matching_launcher_manifest gm backed_up = none) :
    ∀ (pre : List FileDirectory) (fs : MoveFS),
      process_game_manifests backed_up dest gname fs (pre ++ gm :: post) =
        dropFlag (process_game_manifests backed_up dest gname fs pre) := by
  intro pre
  induction pre with
  | nil =>
    intro fs
    simp [process_game_manifests, hgm, dropFlag]
  | cons a pre ih =>
    intro fs
    simp only [List.cons_append]
    unfold process_game_manifests
    cases hm : get_matching_launcher_manifest a backed_up with
    | none => simp [dropFlag]
    | some lm =>
      cases hl : lookupFile fs.source_backup lm.name with
      | none => simp [hl, dropFlag]
      | some content =>
        cases hu : update_manifest_location_references content
            (path_join dest gname) with
        | error e => simp [hl, hu, dropFlag]
        | ok c' =>
          simp only [hl, hu]
          rw [ih, prependEvents_dropFlag]

/-! ## Claim theorems: the per-game move loop -/

/-- C8: a selected game whose raw name already exists as a folder at the
destination is skipped before any manifest is examined, rewritten or moved
and before its install folder is moved (state unchanged, no events), and
processing continues with the remaining selected games as if the game were
absent. -/
theorem c8_existing_destination_folder_skips_game
    (manifest_backup_folder destination_path : String) (fs : MoveFS)
    (g : GameData) (rest : List GameData)
    (h : fs.dest_folders.contains g.game_folder.get_name_raw = true) :
    process_game manifest_backup_folder destination_path fs g = .finished fs [] ∧
    process_games manifest_backup_folder destination_path fs (g :: rest) =
      process_games manifest_backup_folder destination_path fs rest := by
  have h1 : process_game manifest_backup_folder destination_path fs g =
      .finished fs [] := by
    have hmem : g.game_folder.get_name_raw ∈ fs.dest_folders := by simpa using h
    unfold process_game
    simp [hmem]
  refine ⟨h1, ?_⟩
  simp only [process_games, h1, prependTrace_nil]

/-- Witness for C8: a game whose folder already exists at the destination
is skipped and the run continues with the rest. -/
theorem c8_existing_destination_folder_skips_game_witness :
    process_game "/g/_MANIFEST_BACKUPS" "/d"
        (MoveFS.mk exampleMoveFS.source_backup [] ["GameX"]
          ["_MANIFEST_BACKUPS", "GameX"]) exampleOneManifestGame =
      .finished (MoveFS.mk exampleMoveFS.source_backup [] ["GameX"]
        ["_MANIFEST_BACKUPS", "GameX"]) [] ∧
    process_games "/g/_MANIFEST_BACKUPS" "/d"
        (MoveFS.mk exampleMoveFS.source_backup [] ["GameX"]
          ["_MANIFEST_BACKUPS", "GameX"]) [exampleOneManifestGame] =
      process_games "/g/_MANIFEST_BACKUPS" "/d"
        (MoveFS.mk exampleMoveFS.source_backup [] ["GameX"]
          ["_MANIFEST_BACKUPS", "GameX"]) [] :=
  c8_existing_destination_folder_skips_game "/g/_MANIFEST_BACKUPS" "/d"
    (MoveFS.mk exampleMoveFS.source_backup [] ["GameX"]
      ["_MANIFEST_BACKUPS", "GameX"]) exampleOneManifestGame [] (by decide)

/-- C4: whenever processing a selected game moves its install folder, that
move is the last recorded mutation: the trace ends with the single
`gameFolderMoved` event, no install-folder move precedes or interleaves
with the manifest processing, and every manifest file of the game had its
matching launcher manifest rewritten and moved beforehand. -/
theorem c4_install_folder_moved_after_manifests
    (manifest_backup_folder destination_path : String) (fs fs' : MoveFS)
    (g : GameData) (tr : List MoveEvent)
    (h : process_game manifest_backup_folder destination_path fs g = .finished fs' tr)
    (hmov : MoveEvent.gameFolderMoved g.game_folder.name ∈ tr) :
    ∃ tr₀, tr = tr₀ ++ [MoveEvent.gameFolderMoved g.game_folder.name] ∧
      (∀ n, MoveEvent.gameFolderMoved n ∉ tr₀) ∧
      ∀ gm ∈ g.manifest_file_list, ∃ lm,
        get_matching_launcher_manifest gm
          (get_launcher_manifest_files manifest_backup_folder fs.source_backup) =
          some lm ∧
        MoveEvent.manifestRewritten lm.name ∈ tr₀ ∧
        MoveEvent.manifestMoved lm.name ∈ tr₀ := by
  unfold process_game at h
  by_cases hc : g.game_folder.get_name_raw ∈ fs.dest_folders
  · exfalso
    simp [hc] at h
    rw [h.2] at hmov
    simp at hmov
  · simp only [hc] at h
    simp [hc] at h
    cases hres : process_game_manifests
        (get_launcher_manifest_files manifest_backup_folder fs.source_backup)
        destination_path g.game_folder.name fs g.manifest_file_list with
    | exited f t e =>
      rw [hres] at h
      simp at h
    | completed f t b =>
      rw [hres] at h
      cases b with
      | false =>
        simp at h
        have hno := loop_trace_no_folder_move
          (get_launcher_manifest_files manifest_backup_folder fs.source_backup)
          destination_path g.game_folder.name g.manifest_file_list fs
          g.game_folder.name
        rw [hres] at hno
        simp [loopTrace] at hno
        rw [h.2] at hno
        exact absurd hmov hno
      | true =>
        simp at h
        refine ⟨t, h.2.symm, ?_, ?_⟩
        · intro n
          have hno := loop_trace_no_folder_move
            (get_launcher_manifest_files manifest_backup_folder fs.source_backup)
            destination_path g.game_folder.name g.manifest_file_list fs n
          rw [hres] at hno
          simpa [loopTrace] using hno
        · exact loop_completed_true_all_matched
            (get_launcher_manifest_files manifest_backup_folder fs.source_backup)
            destination_path g.game_folder.name g.manifest_file_list fs f t hres

/-- Witness for C4: in a concrete fully matched run the trace is rewrite,
move, then the install-folder move last. -/
theorem c4_install_folder_moved_after_manifests_witness :
    ∃ tr₀, [MoveEvent.manifestRewritten "Game1.item",
        MoveEvent.manifestMoved "Game1.item",
        MoveEvent.gameFolderMoved "GameX"] =
      tr₀ ++ [MoveEvent.gameFolderMoved "GameX"] ∧
      (∀ n, MoveEvent.gameFolderMoved n ∉ tr₀) ∧
      ∀ gm ∈ exampleOneManifestGame.manifest_file_list, ∃ lm,
        get_matching_launcher_manifest gm
          (get_launcher_manifest_files "/g/_MANIFEST_BACKUPS"
            exampleMoveFS.source_backup) = some lm ∧
        MoveEvent.manifestRewritten lm.name ∈ tr₀ ∧
        MoveEvent.manifestMoved lm.name ∈ tr₀ :=
  c4_install_folder_moved_after_manifests "/g/_MANIFEST_BACKUPS" "/d"
    exampleMoveFS
    (MoveFS.mk [] [BackupFile.mk "Game1.item" exampleRewrittenItem] []
      ["_MANIFEST_BACKUPS", "GameX"])
    exampleOneManifestGame
    [MoveEvent.manifestRewritten "Game1.item", MoveEvent.manifestMoved "Game1.item",
      MoveEvent.gameFolderMoved "GameX"]
    (by decide) (by decide)

/-- C1 as stated is false: in `exampleMoveFS`, `exampleTwoManifestGame` has
an unmatched second manifest, yet processing the game still rewrites the
matched launcher manifest `Game1.item` and moves it out of the source
backup folder (only the install folder stays). -/
theorem c1_zero_mutations_counterexample :
    (FileDirectory.mk "Game2.manifest" "/g/GameX/.egstore/Game2.manifest") ∈
      exampleTwoManifestGame.manifest_file_list ∧
    get_matching_launcher_manifest
      (FileDirectory.mk "Game2.manifest" "/g/GameX/.egstore/Game2.manifest")
      (get_launcher_manifest_files "/g/_MANIFEST_BACKUPS"
        exampleMoveFS.source_backup) = none ∧
    process_game "/g/_MANIFEST_BACKUPS" "/d" exampleMoveFS exampleTwoManifestGame =
      .finished (MoveFS.mk [] [BackupFile.mk "Game1.item" exampleRewrittenItem]
        ["GameX"] ["_MANIFEST_BACKUPS"])
        [MoveEvent.manifestRewritten "Game1.item",
          MoveEvent.manifestMoved "Game1.item"] ∧
    (MoveFS.mk [] [BackupFile.mk "Game1.item" exampleRewrittenItem]
      ["GameX"] ["_MANIFEST_BACKUPS"]).source_backup ≠
      exampleMoveFS.source_backup := by
  refine ⟨by decide, by decide, by decide, by decide⟩

/-- C1 (amended): for a selected game with at least one unmatched manifest
file, the install folder stays at the source (source game folders and
destination folders unchanged, no `gameFolderMoved` event), and processing
of that game is exactly the processing of the manifests before the
unmatched one — manifests matched earlier in the list are still rewritten
and moved, the unmatched one and everything after it are untouched. -/
theorem c1_unmatched_manifest_keeps_install
    (manifest_backup_folder destination_path : String) (fs : MoveFS) (g : GameData)
    (pre post : List FileDirectory) (gm : FileDirectory)
    (hnc : g.game_folder.get_name_raw ∉ fs.dest_folders)
    (hlist : g.manifest_file_list = pre ++ gm :: post)
    (hgm : get_matching_launcher_manifest gm
      (get_launcher_manifest_files manifest_backup_folder fs.source_backup) = none) :
    process_game manifest_backup_folder destination_path fs g =
      manifest_loop_outcome (process_game_manifests
        (get_launcher_manifest_files manifest_backup_folder fs.source_backup)
        destination_path g.game_folder.name fs pre) ∧
    ∀ fs' tr, process_game manifest_backup_folder destination_path fs g =
        .finished fs' tr →
      fs'.source_games = fs.source_games ∧ fs'.dest_folders = fs.dest_folders ∧
      ∀ n, MoveEvent.gameFolderMoved n ∉ tr := by
  have h1 : process_game manifest_backup_folder destination_path fs g =
      manifest_loop_outcome (process_game_manifests
        (get_launcher_manifest_files manifest_backup_folder fs.source_backup)
        destination_path g.game_folder.name fs pre) := by
    unfold process_game
    simp only [hlist]
    rw [loop_break_at_unmatched _ _ _ _ _ hgm]
    simp [hnc]
    cases hR : process_game_manifests
        (get_launcher_manifest_files manifest_backup_folder fs.source_backup)
        destination_path g.game_folder.name fs pre with
    | exited f t e => simp [dropFlag, manifest_loop_outcome]
    | completed f t b => simp [dropFlag, manifest_loop_outcome]
  refine ⟨h1, ?_⟩
  intro fs' tr h2
  rw [h1] at h2
  cases hR : process_game_manifests
      (get_launcher_manifest_files manifest_backup_folder fs.source_backup)
      destination_path g.game_folder.name fs pre with
  | exited f t e =>
    rw [hR] at h2
    simp [manifest_loop_outcome] at h2
  | completed f t b =>
    rw [hR] at h2
    simp [manifest_loop_outcome] at h2
    have hfold := loop_preserves_folders
      (get_launcher_manifest_files manifest_backup_folder fs.source_backup)
      destination_path g.game_folder.name pre fs
    rw [hR] at hfold
    simp [loopFS] at hfold
    have htr := loop_trace_no_folder_move
      (get_launcher_manifest_files manifest_backup_folder fs.source_backup)
      destination_path g.game_folder.name pre fs
    refine ⟨?_, ?_, ?_⟩
    · rw [← h2.1]
      exact hfold.1
    · rw [← h2.1]
      exact hfold.2
    · intro n
      have hn := htr n
      rw [hR] at hn
      simp only [loopTrace] at hn
      rw [h2.2] at hn
      exact hn

/-- Witness for C1 (amended): in the concrete two-manifest run with the
second manifest unmatched, processing equals the one-manifest prefix run
and the install folder stays put. -/
theorem c1_unmatched_manifest_keeps_install_witness :
    process_game "/g/_MANIFEST_BACKUPS" "/d" exampleMoveFS exampleTwoManifestGame =
      manifest_loop_outcome (process_game_manifests
        (get_launcher_manifest_files "/g/_MANIFEST_BACKUPS"
          exampleMoveFS.source_backup)
        "/d" "GameX" exampleMoveFS
        [FileDirectory.mk "Game1.manifest" "/g/GameX/.egstore/Game1.manifest"]) ∧
    (MoveFS.mk [] [BackupFile.mk "Game1.item" exampleRewrittenItem]
      ["GameX"] ["_MANIFEST_BACKUPS"]).source_games = exampleMoveFS.source_games ∧
    (MoveFS.mk [] [BackupFile.mk "Game1.item" exampleRewrittenItem]
      ["GameX"] ["_MANIFEST_BACKUPS"]).dest_folders = exampleMoveFS.dest_folders ∧
    MoveEvent.gameFolderMoved "GameX" ∉
      [MoveEvent.manifestRewritten "Game1.item",
        MoveEvent.manifestMoved "Game1.item"] := by
  have h := c1_unmatched_manifest_keeps_install "/g/_MANIFEST_BACKUPS" "/d"
    exampleMoveFS exampleTwoManifestGame
    [FileDirectory.mk "Game1.manifest" "/g/GameX/.egstore/Game1.manifest"] []
    (FileDirectory.mk "Game2.manifest" "/g/GameX/.egstore/Game2.manifest")
    (by decide) rfl (by decide)
  have h2 := h.2
    (MoveFS.mk [] [BackupFile.mk "Game1.item" exampleRewrittenItem]
      ["GameX"] ["_MANIFEST_BACKUPS"])
    [MoveEvent.manifestRewritten "Game1.item", MoveEvent.manifestMoved "Game1.item"]
    (by decide)
  exact ⟨h.1, h2.1, h2.2.1, h2.2.2 "GameX"⟩

end Relinker
